import Mathlib

/-
Shallow embedding of the Binance copy-trading engine
(src/copy_trading_engine.py) together with proofs about its
observation filters, position sizing, safety clamps, classifier,
replication ledger and cancellation handling.

Conventions: timestamps are UTC seconds as integers, monetary
quantities and prices are rationals, string fields keep the literal
values used by the Python source ("BUY"/"SELL", "NEW"/"FILLED"/... ,
"LONG"/"SHORT").  External calls (exchange client availability,
position snapshots, order placement results) are supplied through
explicit environment records.
-/

/-- An order event as observed from the exchange open-order snapshot:
the fields of the order dict consumed by `process_master_order`. -/
structure OrderEvent where
  orderId : String
  symbol : String
  side : String
  otype : String
  origQty : ℚ
  executedQty : ℚ
  price : ℚ
  avgPrice : ℚ
  reduceOnly : Bool
  time : Int
  status : String
  deriving Repr, DecidableEq

/-- A row of the `trades` ledger table (models.Trade). -/
structure TradeRow where
  id : Int
  accountId : Int
  symbol : String
  side : String
  orderType : String
  quantity : ℚ
  price : ℚ
  status : String
  binanceOrderId : String
  copiedFromMaster : Bool
  masterTradeId : Option Int
  createdAt : Int
  deriving Repr, DecidableEq

/-- A row of the `copy_trading_config` table (models.CopyTradingConfig). -/
structure CopyTradingConfig where
  masterAccountId : Int
  followerAccountId : Int
  isActive : Bool
  copyPercentage : ℚ
  riskMultiplier : ℚ
  maxRiskPercentage : ℚ
  deriving Repr, DecidableEq

/-- A position snapshot entry as returned by `client.get_positions()`. -/
structure PositionSnapshot where
  symbol : String
  side : String
  size : ℚ
  deriving Repr, DecidableEq

/-- The order statuses treated as cancellations by `process_master_order`. -/
def cancelStatuses : List String := ["CANCELED", "CANCELLED", "EXPIRED", "REJECTED"]

/-- The time filters of `process_master_order` (its startup protection plus
the status-dependent age windows): returns `true` when processing continues
past the filters.  `serverStart` is `self.server_start_time`, `now` is the
tick's `datetime.utcnow()`, all in seconds. -/
def process_master_order_time_filter (orderTime serverStart now : Int)
    (status : String) (isPotentiallyClosing : Bool) : Bool :=
  if orderTime < serverStart then false
  else if isPotentiallyClosing then true
  else if status ∈ cancelStatuses then decide (now - 120 ≤ orderTime)
  else if status = "NEW" ∨ status = "PARTIALLY_FILLED" then decide (now - 600 ≤ orderTime)
  else if status = "FILLED" then decide (now - 600 ≤ orderTime)
  else decide (now - 300 ≤ orderTime)

/-- The `startup_complete` bookkeeping of `check_master_trades`: after the
first check for a master the account id is recorded. -/
def startup_complete_after_check (startupComplete : List Int) (masterId : Int) : List Int :=
  if masterId ∈ startupComplete then startupComplete else masterId :: startupComplete

/-- Balance-ratio position sizing (`calculate_balance_ratio_quantity`):
scale the master's notional by the follower/master balance ratio and
convert back to a quantity at the mark price. -/
def calculate_balance_ratio_quantity
    (masterQuantity masterBalance followerBalance markPrice : ℚ) : ℚ :=
  let balanceRatio := followerBalance / masterBalance
  let masterNotional := masterQuantity * markPrice
  let followerNotional := masterNotional * balanceRatio
  followerNotional / markPrice

/-- Division that raises (Python `ZeroDivisionError`) when the divisor is
zero; the error value carries the quantity current at that point, which is
what the `except` handler of `apply_safety_limits` returns. -/
def clampDiv (x y cur : ℚ) : Except ℚ ℚ :=
  if y = 0 then Except.error cur else Except.ok (x / y)

/-- `getattr(Config, 'DEFAULT_TRADE_MARGIN_PERCENTAGE', 1.8)`: the Config
class has no such attribute, so the default 1.8 applies. -/
def target_margin_pct : ℚ := 9 / 5

/-- The body of `apply_safety_limits`: margin-ratio cap, then the cap at
90 percent of the follower's configured leverage, then the link's
maxRiskPercentage cap, recomputing position value after each clamp.
A missing (NULL) leverage setting raises at `leverage * 0.9`; divisions by a
zero trade price raise; a raised error carries the quantity reached so far. -/
def apply_safety_limits_checked (quantity followerBalance tradePrice : ℚ)
    (leverage : Option ℚ) (maxRiskPercentage : ℚ) : Except ℚ ℚ := do
  let positionValue := quantity * tradePrice
  let riskPercentage := if followerBalance > 0 then positionValue / followerBalance * 100 else 0
  let q1 ←
    if followerBalance > 0 ∧ riskPercentage > target_margin_pct then do
      let maxNotionalByMargin := followerBalance * (target_margin_pct / 100)
      let capped ← clampDiv maxNotionalByMargin tradePrice quantity
      pure (if capped < quantity then capped else quantity)
    else
      pure quantity
  let effectiveLeverage := if followerBalance > 0 then q1 * tradePrice / followerBalance else 0
  match leverage with
  | none => Except.error q1
  | some lev => do
      let maxAllowedLeverage := lev * (9 / 10)
      let q2 ←
        if effectiveLeverage > maxAllowedLeverage then
          clampDiv (followerBalance * maxAllowedLeverage) tradePrice q1
        else
          pure q1
      let maxRiskValue := followerBalance * (maxRiskPercentage / 100)
      let maxQuantityByRisk ← clampDiv maxRiskValue tradePrice q2
      pure (if q2 > maxQuantityByRisk then maxQuantityByRisk else q2)

/-- `apply_safety_limits` with its `except` handler: an exception inside the
stage returns the quantity reached at the point of failure. -/
def apply_safety_limits (quantity followerBalance tradePrice : ℚ)
    (leverage : Option ℚ) (maxRiskPercentage : ℚ) : ℚ :=
  match apply_safety_limits_checked quantity followerBalance tradePrice leverage
      maxRiskPercentage with
  | Except.ok q => q
  | Except.error q => q

/-- Result of the margin-ratio clamp alone, assuming no exception interrupts
it: the state of `quantity` right after the first clamp of
`apply_safety_limits` (this is what the stage returns when a later step
raises, e.g. when the follower's leverage setting is NULL). -/
def safety_stage1 (q b p : ℚ) : ℚ :=
  if b > 0 ∧ q * p / b * 100 > 9 / 5 then
    if b * (9 / 5 / 100) / p < q then b * (9 / 5 / 100) / p else q
  else q

/-- The leverage clamp followed by the maxRiskPercentage clamp of
`apply_safety_limits`, starting from the quantity `q1` produced by the
margin-ratio clamp (exception-free path, trade price nonzero). -/
def safety_stage23 (q1 b p L mr : ℚ) : ℚ :=
  let q2 := if (if b > 0 then q1 * p / b else 0) > L * (9 / 10) then
      b * (L * (9 / 10)) / p else q1
  if q2 > b * (mr / 100) / p then b * (mr / 100) / p else q2

/-- Python `round` (banker's rounding, round half to even). -/
def pythonRound (x : ℚ) : ℤ :=
  let f := Int.floor x
  let r := x - (f : ℚ)
  if r < 1 / 2 then f
  else if r > 1 / 2 then f + 1
  else if f % 2 = 0 then f else f + 1

/-- Python `round(x, 8)`. -/
def round8 (x : ℚ) : ℚ := (pythonRound (x * 100000000) : ℚ) / 100000000

/-- The close-order quantity used by `close_follower_positions`:
`max(0.001, round(float(position_to_close['size']), 8))`. -/
def close_quantity (size : ℚ) : ℚ := max (1 / 1000) (round8 size)

/-- The position-scanning loop of `close_follower_positions`: the first
position in the follower's snapshot whose symbol matches and whose side is
opposite to the master's order side (master SELL closes LONG, master BUY
closes SHORT). -/
def find_position_to_close (positions : List PositionSnapshot)
    (symbol masterSide : String) : Option PositionSnapshot :=
  positions.find? fun pos =>
    pos.symbol == symbol &&
      ((masterSide == "SELL" && pos.side == "LONG") ||
        (masterSide == "BUY" && pos.side == "SHORT"))

/-- The per-link close processing of `close_follower_positions` restricted
to the computed close quantity: none when the follower holds no opposite
position in the symbol.  The link configuration `cfg` is passed exactly as
in the source loop; the computed quantity never reads its fields. -/
def close_follower_position_quantity (_cfg : CopyTradingConfig)
    (followerPositions : List PositionSnapshot) (masterTrade : TradeRow) : Option ℚ :=
  (find_position_to_close followerPositions masterTrade.symbol masterTrade.side).map
    fun pos => close_quantity pos.size

/-- Follower-trade statuses still cancellable on the exchange. -/
def cancellableStatus (s : String) : Bool := s == "PENDING" || s == "PARTIALLY_FILLED"

/-- Rows selected by `handle_master_order_cancellation_with_trade`: follower
trades copied from the given master trade that are still active; the engine
then cancels their exchange orders. -/
def handle_master_order_cancellation_with_trade_targets
    (trades : List TradeRow) (masterTrade : TradeRow) : List TradeRow :=
  trades.filter fun t =>
    t.masterTradeId == some masterTrade.id && t.copiedFromMaster &&
      cancellableStatus t.status

/-- Follower account ids of the active copy links of a master
(`CopyTradingConfig` rows with `is_active`). -/
def active_follower_ids (configs : List CopyTradingConfig) (masterId : Int) : List Int :=
  (configs.filter fun c => c.masterAccountId == masterId && c.isActive).map
    (fun c => c.followerAccountId)

/-- Rows selected by `handle_cancellation_by_order_details`: follower trades
matching the cancelled order's symbol and side, still active, created within
30 minutes either side of the order time, restricted to followers of the
master's active links; the engine then cancels their exchange orders. -/
def handle_cancellation_by_order_details_targets
    (trades : List TradeRow) (configs : List CopyTradingConfig)
    (masterId : Int) (orderSymbol orderSide : String) (orderTime : Int) : List TradeRow :=
  let followerTrades := trades.filter fun t =>
    t.symbol == orderSymbol && t.side == orderSide && t.copiedFromMaster &&
      cancellableStatus t.status &&
      decide (orderTime - 1800 ≤ t.createdAt) && decide (t.createdAt ≤ orderTime + 1800)
  let relevantIds := active_follower_ids configs masterId
  followerTrades.filter fun t => decide (t.accountId ∈ relevantIds)

/-- Rows selected by `cancel_recent_follower_orders_by_pattern` (the backup
cancellation pass used when no master trade record exists): like the
by-details search but with a window from 2 minutes before to 3 minutes after
the order time. -/
def cancel_recent_follower_orders_by_pattern_targets
    (trades : List TradeRow) (configs : List CopyTradingConfig)
    (masterId : Int) (orderSymbol orderSide : String) (orderTime : Int) : List TradeRow :=
  let relevantIds := active_follower_ids configs masterId
  trades.filter fun t =>
    decide (t.accountId ∈ relevantIds) && t.symbol == orderSymbol && t.side == orderSide &&
      cancellableStatus t.status && t.copiedFromMaster &&
      decide (orderTime - 120 ≤ t.createdAt) && decide (t.createdAt ≤ orderTime + 180)

/-- External inputs of the classifier `is_position_closing_order`: client
availability and the position snapshots returned by the exchange, plus the
current time. -/
structure ClassifierEnv where
  hasMasterClient : Bool
  hasFollowerClient : Int → Bool
  followerPositions : Int → List PositionSnapshot
  masterPositions : List PositionSnapshot
  now : Int

/-- A position opposite to an order side: LONG against SELL or SHORT
against BUY. -/
def isCloseMatch (posSide tradeSide : String) : Bool :=
  (posSide == "LONG" && tradeSide == "SELL") || (posSide == "SHORT" && tradeSide == "BUY")

/-- Active copy links of a master (query used throughout the engine). -/
def active_configs_for_master (configs : List CopyTradingConfig)
    (masterId : Int) : List CopyTradingConfig :=
  configs.filter fun c => c.masterAccountId == masterId && c.isActive

/-- Insert into a list kept sorted by descending creation time. -/
def insertByTimeDesc (t : TradeRow) : List TradeRow → List TradeRow
  | [] => [t]
  | h :: rest =>
    if h.createdAt ≤ t.createdAt then t :: h :: rest else h :: insertByTimeDesc t rest

/-- Sort trade rows by descending creation time (the classifier's
`order_by(Trade.created_at.desc())`). -/
def sortByTimeDesc : List TradeRow → List TradeRow
  | [] => []
  | t :: rest => insertByTimeDesc t (sortByTimeDesc rest)

/-- The classifier's 6-hour lookback query: filled or partially filled
trades of the master in the order's symbol from the last 6 hours, the trade
being classified excluded, newest first, limited to 50 rows. -/
def classifier_recent_trades (trades : List TradeRow) (masterId : Int)
    (tr : TradeRow) (now : Int) : List TradeRow :=
  (sortByTimeDesc (trades.filter fun t =>
    t.accountId == masterId && t.symbol == tr.symbol &&
      (t.status == "FILLED" || t.status == "PARTIALLY_FILLED") &&
      decide (now - 21600 ≤ t.createdAt) && decide (t.id ≠ tr.id))).take 50

/-- Signed running quantity of a trade list (BUY adds, SELL subtracts). -/
def netPosition (ts : List TradeRow) : ℚ :=
  ts.foldl (fun acc t => if t.side == "BUY" then acc + t.quantity else acc - t.quantity) 0

/-- Division raising Python's `ZeroDivisionError` (caught by the
classifier's outermost handler, which returns False). -/
def qdiv (x y : ℚ) : Except Unit ℚ :=
  if y = 0 then Except.error () else Except.ok (x / y)

/-- STEP 3 of `is_position_closing_order` (runs once a most recent
opposite-side trade `mro` exists): the simple-closing check, the
significant-position-reduction check and the net-position heuristic. -/
def classifier_step3 (env : ClassifierEnv) (tr : TradeRow)
    (recentTrades sameSide : List TradeRow) (mro : TradeRow) : Except Unit Bool := do
  let sameSideAfter := sameSide.filter fun t => decide (mro.createdAt < t.createdAt)
  let simpleClose ←
    if sameSideAfter.isEmpty then do
      let timeGapMinutes : ℚ := ((env.now - mro.createdAt : ℤ) : ℚ) / 60
      let quantityRat ← qdiv tr.quantity mro.quantity
      pure (decide (timeGapMinutes ≤ 30) && decide (quantityRat ≥ 1 / 2))
    else
      pure false
  if simpleClose then pure true
  else
    let net := netPosition recentTrades
    if tr.side == "SELL" && decide (net > 0) && decide (tr.quantity ≥ net * (1 / 2)) then
      pure true
    else if tr.side == "BUY" && decide (net < 0) && decide (tr.quantity ≥ |net| * (1 / 2)) then
      pure true
    else if decide (net > 0) && tr.side == "SELL" then pure true
    else if decide (net < 0) && tr.side == "BUY" then pure true
    else pure false

/-- STEP 4 of `is_position_closing_order`: quantity matching against the
total opposite-side quantity of the last hour, skipped when the master holds
a same-direction position. -/
def classifier_step4 (env : ClassifierEnv) (trades : List TradeRow)
    (masterId : Int) (tr : TradeRow) (oppositeSide : String) : Bool :=
  let sameDirectionPosition := env.masterPositions.any fun pos =>
    pos.symbol == tr.symbol && decide (|pos.size| > 1 / 1000) &&
      ((pos.side == "LONG" && tr.side == "BUY") || (pos.side == "SHORT" && tr.side == "SELL"))
  if sameDirectionPosition then false
  else
    let recentOppositeInHour := trades.filter fun t =>
      t.accountId == masterId && t.symbol == tr.symbol && t.side == oppositeSide &&
        (t.status == "FILLED" || t.status == "PARTIALLY_FILLED") &&
        decide (env.now - 3600 ≤ t.createdAt)
    if recentOppositeInHour.isEmpty then false
    else
      let total := recentOppositeInHour.foldl (fun acc t => acc + t.quantity) 0
      if total > 0 then decide (|tr.quantity - total| / total < 15 / 100)
      else false

/-- STEP 5 of `is_position_closing_order`: the strict delayed-closing
time-window fallback against the most recent opposite-side trade. -/
def classifier_step5 (env : ClassifierEnv) (tr : TradeRow) (mro : TradeRow) :
    Except Unit Bool := do
  let timeDiff := env.now - mro.createdAt
  if timeDiff ≤ 900 then do
    let qtyDiffRat ← qdiv (|tr.quantity - mro.quantity|) mro.quantity
    if qtyDiffRat ≤ 5 / 100 then pure true
    else if decide (tr.quantity ≥ mro.quantity * (9 / 10)) &&
        decide (300 ≤ timeDiff) && decide (timeDiff ≤ 900) then pure true
    else if 600 ≤ timeDiff ∧ timeDiff ≤ 900 then do
      let qtyDiffRat2 ← qdiv (|tr.quantity - mro.quantity|) mro.quantity
      pure (decide (qtyDiffRat2 ≤ 3 / 100))
    else pure false
  else pure false

/-- Body of `is_position_closing_order` with Python exceptions made
explicit: STEP 0 checks follower positions, STEP 2 the master's own
positions, then the bounded trade-history analysis (STEPs 3 to 5). -/
def is_position_closing_order_checked (env : ClassifierEnv)
    (configs : List CopyTradingConfig) (masterId : Int) (tr : TradeRow)
    (trades : List TradeRow) : Except Unit Bool := do
  if ¬ env.hasMasterClient then pure false
  else
    let cfgs := active_configs_for_master configs masterId
    let hasFollowerPositionsToClose := cfgs.any fun c =>
      env.hasFollowerClient c.followerAccountId &&
        ((env.followerPositions c.followerAccountId).any fun pos =>
          pos.symbol == tr.symbol && decide (|pos.size| > 1 / 1000) &&
            isCloseMatch pos.side tr.side)
    if hasFollowerPositionsToClose then pure true
    else if env.masterPositions.any fun pos =>
        pos.symbol == tr.symbol && isCloseMatch pos.side tr.side then pure true
    else
      let recentTrades := classifier_recent_trades trades masterId tr env.now
      let oppositeSide := if tr.side = "SELL" then "BUY" else "SELL"
      let recentOpposite := recentTrades.filter fun t => t.side == oppositeSide
      let sameSide := recentTrades.filter fun t => t.side == tr.side
      match recentOpposite.head? with
      | none => pure (classifier_step4 env trades masterId tr oppositeSide)
      | some mro => do
          let s3 ← classifier_step3 env tr recentTrades sameSide mro
          if s3 then pure true
          else if classifier_step4 env trades masterId tr oppositeSide then pure true
          else classifier_step5 env tr mro

/-- `is_position_closing_order` with its outermost exception handler: any
internal error yields False (treat as a regular trade so copying
continues). -/
def is_position_closing_order (env : ClassifierEnv)
    (configs : List CopyTradingConfig) (masterId : Int) (tr : TradeRow)
    (trades : List TradeRow) : Bool :=
  match is_position_closing_order_checked env configs masterId tr trades with
  | Except.ok b => b
  | Except.error _ => false

/-- The dispatch of `process_master_order` after classification: reduce-only
orders and detected position closings close follower positions, everything
else is copied to followers; classification never drops a trade. -/
def master_order_routing (reduceOnly closing : Bool) : String :=
  if reduceOnly then "close" else if closing then "close" else "copy"

/-- External inputs of `process_master_order` and the replicator: exchange
client availability, position snapshots, the sizing result, order-placement
and cancellation outcomes, and the tick time. -/
structure EngineEnv where
  hasMasterClient : Bool
  hasFollowerClient : Int → Bool
  followerPositions : Int → List PositionSnapshot
  masterPositions : List PositionSnapshot
  quantityFor : CopyTradingConfig → ℚ
  placeOk : CopyTradingConfig → ℚ → Bool
  followerOrderId : CopyTradingConfig → String
  closeOk : CopyTradingConfig → Bool
  closeOrderId : CopyTradingConfig → String
  cancelOk : TradeRow → Bool
  now : Int

/-- The classifier's view of an engine environment. -/
def EngineEnv.classifier (env : EngineEnv) : ClassifierEnv :=
  { hasMasterClient := env.hasMasterClient
    hasFollowerClient := env.hasFollowerClient
    followerPositions := env.followerPositions
    masterPositions := env.masterPositions
    now := env.now }

/-- The trades table with the autoincrement id counter; `session.add`
appends, `query(...).first()` scans in insertion (rowid) order. -/
structure Ledger where
  trades : List TradeRow
  nextId : Int

/-- Insert a row, assigning the next id. -/
def insertTrade (led : Ledger) (mk : Int → TradeRow) : Ledger :=
  { trades := led.trades ++ [mk led.nextId], nextId := led.nextId + 1 }

/-- Set `copied_from_master = True` on the row with the given id (done at
the end of both `copy_trade_to_followers` and `close_follower_positions`). -/
def markCopied (led : Ledger) (tid : Int) : Ledger :=
  { led with trades := led.trades.map fun t =>
      if t.id = tid then { t with copiedFromMaster := true } else t }

/-- `copy_trade_to_followers`: for each active link of the master, skip when
the follower client is missing, compute the follower quantity, skip
non-positive quantities, place the order, and on success persist a follower
trade with `copied_from_master = True` and `master_trade_id` set; finally
mark the master trade as copied (only when at least one link exists — with
no links the function returns before reaching that flag). -/
def copy_trade_to_followers (env : EngineEnv) (configs : List CopyTradingConfig)
    (masterTrade : TradeRow) (led : Ledger) : Ledger :=
  let cfgs := active_configs_for_master configs masterTrade.accountId
  if cfgs.isEmpty then led
  else
    let led1 := cfgs.foldl (fun acc c =>
      if ¬ env.hasFollowerClient c.followerAccountId then acc
      else
        let q := env.quantityFor c
        if q ≤ 0 then acc
        else if env.placeOk c q then
          insertTrade acc (fun i =>
            { id := i, accountId := c.followerAccountId, symbol := masterTrade.symbol,
              side := masterTrade.side, orderType := masterTrade.orderType, quantity := q,
              price := masterTrade.price, status := "PENDING",
              binanceOrderId := env.followerOrderId c, copiedFromMaster := true,
              masterTradeId := some masterTrade.id, createdAt := env.now })
        else acc) led
    markCopied led1 masterTrade.id

/-- `close_follower_positions`: for each active link, find the follower's
first opposite position in the symbol and close it in full, recording a
FILLED follower trade referencing the master trade; finally mark the master
trade as copied (again only when links exist). -/
def close_follower_positions (env : EngineEnv) (configs : List CopyTradingConfig)
    (masterTrade : TradeRow) (led : Ledger) : Ledger :=
  let cfgs := active_configs_for_master configs masterTrade.accountId
  if cfgs.isEmpty then led
  else
    let led1 := cfgs.foldl (fun acc c =>
      if ¬ env.hasFollowerClient c.followerAccountId then acc
      else
        match find_position_to_close (env.followerPositions c.followerAccountId)
            masterTrade.symbol masterTrade.side with
        | none => acc
        | some pos =>
          if env.closeOk c then
            insertTrade acc (fun i =>
              { id := i, accountId := c.followerAccountId, symbol := masterTrade.symbol,
                side := if pos.side == "LONG" then "SELL" else "BUY",
                orderType := "MARKET", quantity := close_quantity pos.size, price := 0,
                status := "FILLED", binanceOrderId := env.closeOrderId c,
                copiedFromMaster := true, masterTradeId := some masterTrade.id,
                createdAt := env.now })
          else acc) led
    markCopied led1 masterTrade.id

/-- The three-method duplicate check of `process_master_order` run before
copying NEW, PARTIALLY_FILLED and FILLED orders: a recent follower copy with
the same symbol and side, a master row for the same exchange order already
flagged as copied, or another master row for the same exchange order with
follower trades referencing it. -/
def duplicate_copy_check (trades : List TradeRow) (configs : List CopyTradingConfig)
    (masterId : Int) (o : OrderEvent) (currentId : Int) (now : Int) : Bool :=
  let followerIds := active_follower_ids configs masterId
  let existingCopy := trades.any fun t =>
    decide (t.accountId ∈ followerIds) && t.symbol == o.symbol && t.side == o.side &&
      t.copiedFromMaster && decide (now - 1800 ≤ t.createdAt)
  let existingMasterCopy := trades.any fun t =>
    t.accountId == masterId && t.binanceOrderId == o.orderId && t.copiedFromMaster
  let hasRelatedFollowers :=
    match trades.find? (fun t =>
        t.accountId == masterId && t.binanceOrderId == o.orderId &&
          decide (t.id ≠ currentId)) with
    | none => false
    | some m => trades.any fun f => f.masterTradeId == some m.id && f.copiedFromMaster
  existingCopy || existingMasterCopy || hasRelatedFollowers

/-- The potential-position-closing pre-check of `process_master_order`
(lines 502-539): FILLED MARKET orders bypass the age windows when they are
reduce-only or some follower holds an opposite position in the symbol. -/
def is_potentially_closing (env : EngineEnv) (configs : List CopyTradingConfig)
    (masterId : Int) (o : OrderEvent) : Bool :=
  if o.status == "FILLED" && o.otype == "MARKET" then
    if o.reduceOnly then true
    else
      (active_configs_for_master configs masterId).any fun c =>
        env.hasFollowerClient c.followerAccountId &&
          ((env.followerPositions c.followerAccountId).any fun pos =>
            pos.symbol == o.symbol && decide (|pos.size| > 1 / 1000) &&
              ((pos.side == "LONG" && o.side == "SELL") ||
                (pos.side == "SHORT" && o.side == "BUY")))
  else false

/-- Status update applied when a follower order is successfully cancelled on
the exchange (client available, order id recorded, cancel call succeeded). -/
def applyCancellations (env : EngineEnv) (led : Ledger) (targets : List TradeRow) : Ledger :=
  { led with trades := led.trades.map fun t =>
      if (targets.any fun x => x.id == t.id) && env.hasFollowerClient t.accountId &&
          t.binanceOrderId != "" && env.cancelOk t then
        { t with status := "CANCELLED" }
      else t }

/-- The cancellation branch of `process_master_order`: with a recorded
master trade, mark it CANCELLED and cancel its linked active follower
orders; with no record, fall back to the by-details search and the backup
pattern search (the position cleanup that follows touches exchange
positions only, never trade rows). -/
def process_cancellation (env : EngineEnv) (configs : List CopyTradingConfig)
    (masterId : Int) (o : OrderEvent) (led : Ledger) : Ledger :=
  match led.trades.find? (fun t =>
      t.accountId == masterId && t.binanceOrderId == o.orderId) with
  | some mt =>
    let led1 : Ledger := { led with trades := led.trades.map fun t =>
      if t.id = mt.id then { t with status := "CANCELLED" } else t }
    let targets := handle_master_order_cancellation_with_trade_targets led1.trades
      { mt with status := "CANCELLED" }
    applyCancellations env led1 targets
  | none =>
    let targets1 := handle_cancellation_by_order_details_targets led.trades configs
      masterId o.symbol o.side o.time
    let led1 := applyCancellations env led targets1
    let targets2 := cancel_recent_follower_orders_by_pattern_targets led1.trades configs
      masterId o.symbol o.side o.time
    applyCancellations env led1 targets2

/-- The database status, recorded quantity and recorded price used for the
master trade row, by observed order status. -/
def db_trade_fields (o : OrderEvent) : Option (String × ℚ × ℚ) :=
  if o.status == "NEW" then some ("PENDING", o.origQty, o.price)
  else if o.status == "PARTIALLY_FILLED" then some ("PARTIALLY_FILLED", o.executedQty, o.avgPrice)
  else if o.status == "FILLED" then some ("FILLED", o.executedQty, o.avgPrice)
  else none

/-- The master trade row recorded by `process_master_order` for an observed
order (copied_from_master False, no master reference). -/
def master_trade_row (masterId : Int) (o : OrderEvent) (dbStatus : String)
    (qty price : ℚ) (i now : Int) : TradeRow :=
  { id := i, accountId := masterId, symbol := o.symbol, side := o.side,
    orderType := o.otype, quantity := qty, price := price, status := dbStatus,
    binanceOrderId := o.orderId, copiedFromMaster := false, masterTradeId := none,
    createdAt := now }

/-- `process_master_order` for one observed order: apply the time filters,
handle cancellations, record the master trade row, run the duplicate check,
classify, and dispatch to `close_follower_positions` or
`copy_trade_to_followers`. -/
def process_master_order (env : EngineEnv) (configs : List CopyTradingConfig)
    (masterId : Int) (o : OrderEvent) (serverStart : Int) (led : Ledger) : Ledger :=
  let potentiallyClosing := is_potentially_closing env configs masterId o
  if ¬ process_master_order_time_filter o.time serverStart env.now o.status
      potentiallyClosing then led
  else if o.status ∈ cancelStatuses then
    process_cancellation env configs masterId o led
  else
    match db_trade_fields o with
    | none => led
    | some (dbStatus, qty, price) =>
      let dbTrade : TradeRow := master_trade_row masterId o dbStatus qty price
        led.nextId env.now
      let led1 : Ledger := { trades := led.trades ++ [dbTrade], nextId := led.nextId + 1 }
      if duplicate_copy_check led1.trades configs masterId o dbTrade.id env.now then led1
      else
        let closing := is_position_closing_order env.classifier configs masterId dbTrade
          led1.trades
        if o.reduceOnly || closing then close_follower_positions env configs dbTrade led1
        else copy_trade_to_followers env configs dbTrade led1

/-- Outcome of one order-placement attempt as classified by
`place_follower_trade`: success, the insufficient-margin rejection
(code -2019), or any other exchange error (re-raised). -/
inductive PlaceOutcome
  | success
  | marginError
  | otherError
  deriving Repr, DecidableEq

/-- Result of the adaptive placement loop of `place_follower_trade`.
`skippedRetries` is the give-up after the retry budget, `skippedMinNotional`
the refusal to halve below the 5-dollar exchange minimum, `errored` the
re-raise of a non-margin error (caught by the outer handler, which also
returns failure); `fuelOut` is a modelling artifact shown unreachable. -/
inductive DispatchOutcome
  | placed (qty : ℚ)
  | skippedRetries
  | skippedMinNotional
  | errored
  | fuelOut
  deriving Repr, DecidableEq

/-- Trace of the placement loop: final outcome, the (quantity, leverage)
of every placement attempt in order, the number of accepted quantity
halvings, and the halved quantities that passed the minimum-notional
guard (before precision adjustment). -/
structure DispatchTrace where
  outcome : DispatchOutcome
  attempts : List (ℚ × Int)
  halvings : Nat
  proposals : List ℚ
  deriving Repr, DecidableEq

/-- The fixed leverage-escalation ladder of `place_follower_trade`. -/
def leverage_steps : List Int := [20, 50, 75, 100, 125]

/-- First untried ladder rung above the current leverage. -/
def next_leverage (currentLeverage : Int) (attempted : List Int) : Option Int :=
  leverage_steps.find? fun l => decide (currentLeverage < l) && decide (l ∉ attempted)

/-- The retry loop of `place_follower_trade` (max_retries = 3, Binance
minimum notional 5 dollars).  `envOutcome n` is the exchange's response to
the n-th placement attempt, `setLeverageOk` whether `set_leverage` to a rung
succeeds, `adjust` the symbol precision adjustment applied to a halved
quantity, `price` the master trade price (0 models a falsy price).  On a
margin error the loop first escalates leverage through untried higher rungs
retrying with the same quantity; a failed escalation or an exhausted ladder
falls through to halving, guarded by the retry budget and the minimum
notional. -/
def place_follower_trade_loop (envOutcome : Nat → PlaceOutcome)
    (setLeverageOk : Int → Bool) (adjust : ℚ → ℚ) (price : ℚ) :
    Nat → Nat → ℚ → Int → List Int → Nat → DispatchTrace
  | 0, _, _, _, _, _ => ⟨DispatchOutcome.fuelOut, [], 0, []⟩
  | fuel + 1, idx, q, lev, attempted, retry =>
    match envOutcome idx with
    | PlaceOutcome.success => ⟨DispatchOutcome.placed q, [(q, lev)], 0, []⟩
    | PlaceOutcome.otherError => ⟨DispatchOutcome.errored, [(q, lev)], 0, []⟩
    | PlaceOutcome.marginError =>
      match next_leverage lev attempted with
      | some nl =>
        if setLeverageOk nl then
          let r := place_follower_trade_loop envOutcome setLeverageOk adjust price
            fuel (idx + 1) q nl (nl :: attempted) retry
          ⟨r.outcome, (q, lev) :: r.attempts, r.halvings, r.proposals⟩
        else
          if retry ≥ 3 then ⟨DispatchOutcome.skippedRetries, [(q, lev)], 0, []⟩
          else
            let proposed := q * (1 / 2)
            if price ≠ 0 ∧ proposed * price < 5 then
              ⟨DispatchOutcome.skippedMinNotional, [(q, lev)], 0, []⟩
            else
              let r := place_follower_trade_loop envOutcome setLeverageOk adjust price
                fuel (idx + 1) (adjust proposed) lev (nl :: attempted) (retry + 1)
              ⟨r.outcome, (q, lev) :: r.attempts, r.halvings + 1, proposed :: r.proposals⟩
      | none =>
        if retry ≥ 3 then ⟨DispatchOutcome.skippedRetries, [(q, lev)], 0, []⟩
        else
          let proposed := q * (1 / 2)
          if price ≠ 0 ∧ proposed * price < 5 then
            ⟨DispatchOutcome.skippedMinNotional, [(q, lev)], 0, []⟩
          else
            let r := place_follower_trade_loop envOutcome setLeverageOk adjust price
              fuel (idx + 1) (adjust proposed) lev attempted (retry + 1)
            ⟨r.outcome, (q, lev) :: r.attempts, r.halvings + 1, proposed :: r.proposals⟩

/-- The placement loop started as `place_follower_trade` starts it: no
placement attempts yet, the follower's configured leverage already in the
attempted set, retry budget untouched.  Nine iterations always suffice
(proved below), matching the loop's intrinsic bound of five ladder rungs
plus three halvings plus the final verdict. -/
def place_follower_trade_dispatch (envOutcome : Nat → PlaceOutcome)
    (setLeverageOk : Int → Bool) (adjust : ℚ → ℚ) (price : ℚ)
    (q0 : ℚ) (lev0 : Int) : DispatchTrace :=
  place_follower_trade_loop envOutcome setLeverageOk adjust price 9 0 q0 lev0 [lev0] 0

/-- Pairwise discipline of the attempt list: whenever the leverage changes
between consecutive attempts the quantity is unchanged and the leverage
strictly increased (escalation retries reuse the quantity and only ever
climb the ladder). -/
def EscalationChained : List (ℚ × Int) → Prop
  | [] => True
  | [_] => True
  | (q1, l1) :: (q2, l2) :: rest =>
      (l2 ≠ l1 → q2 = q1 ∧ l1 < l2) ∧ EscalationChained ((q2, l2) :: rest)

/-- Fixture: a master trade row for order "77" of master account 1. -/
def exampleMasterTrade : TradeRow :=
  { id := 5, accountId := 1, symbol := "XRPUSDT", side := "BUY",
    orderType := "LIMIT", quantity := 10, price := 3, status := "CANCELLED",
    binanceOrderId := "77", copiedFromMaster := false, masterTradeId := none,
    createdAt := 900 }

/-- Fixture: a still-pending follower copy of `exampleMasterTrade`. -/
def exampleFollowerTrade : TradeRow :=
  { id := 6, accountId := 2, symbol := "XRPUSDT", side := "BUY",
    orderType := "LIMIT", quantity := 1, price := 3, status := "PENDING",
    binanceOrderId := "78", copiedFromMaster := true, masterTradeId := some 5,
    createdAt := 901 }

/-- Fixture: a follower trade already FILLED, matching order "77" by symbol,
side, follower and time window. -/
def exampleFilledFollowerTrade : TradeRow :=
  { id := 7, accountId := 2, symbol := "XRPUSDT", side := "BUY",
    orderType := "MARKET", quantity := 1, price := 3, status := "FILLED",
    binanceOrderId := "79", copiedFromMaster := true, masterTradeId := none,
    createdAt := 900 }

/-- Fixture: the active copy link from master 1 to follower 2. -/
def exampleConfig : CopyTradingConfig :=
  { masterAccountId := 1, followerAccountId := 2, isActive := true,
    copyPercentage := 100, riskMultiplier := 1, maxRiskPercentage := 50 }

/-- Well-formedness of the ledger: every row id is below the autoincrement
counter and every masterTradeId reference points below it too. -/
def LedgerWF (led : Ledger) : Prop :=
  ∀ t ∈ led.trades, t.id < led.nextId ∧ ∀ j, t.masterTradeId = some j → j < led.nextId

/-- Number of follower trade rows referencing the master trade row with id
`mid` for the follower account `accId`. -/
def count_follower_refs (trades : List TradeRow) (mid accId : Int) : Nat :=
  trades.countP fun f => f.masterTradeId == some mid && f.accountId == accId

/-- Number of follower trade rows (copied rows whose masterTradeId points
at some master row of account `masterId` recorded for exchange order
`orderId`) — the count of the at-most-once propagation property. -/
def follower_rows_count (trades : List TradeRow) (masterId : Int)
    (orderId : String) : Nat :=
  trades.countP fun f =>
    f.copiedFromMaster && trades.any fun m =>
      f.masterTradeId == some m.id && m.accountId == masterId &&
        m.binanceOrderId == orderId

/-- Fixture: an environment with no clients and empty snapshots. -/
def trivialEngineEnv : EngineEnv :=
  { hasMasterClient := false, hasFollowerClient := fun _ => false,
    followerPositions := fun _ => [], masterPositions := [],
    quantityFor := fun _ => 0, placeOk := fun _ _ => false,
    followerOrderId := fun _ => "", closeOk := fun _ => false,
    closeOrderId := fun _ => "", cancelOk := fun _ => false, now := 1000 }

/-- Fixture: a fresh NEW limit order observed within the age windows of a
tick at time 1000 with server start 0. -/
def exampleNewOrder : OrderEvent :=
  { orderId := "42", symbol := "XRPUSDT", side := "BUY", otype := "LIMIT",
    origQty := 10, executedQty := 0, price := 3, avgPrice := 0,
    reduceOnly := false, time := 700, status := "NEW" }

/-
Helper lemmas.
-/

theorem safety_stage1_le (q b p : ℚ) : safety_stage1 q b p ≤ q := by
  unfold safety_stage1
  split_ifs with h1 h2
  · exact le_of_lt h2
  · exact le_rfl
  · exact le_rfl

theorem lev_cap_lt (q1 b p L : ℚ) (hb : 0 < b) (hp : 0 < p)
    (h : q1 * p / b > L * (9 / 10)) : b * (L * (9 / 10)) / p < q1 := by
  rw [div_lt_iff₀ hp]
  rw [gt_iff_lt, lt_div_iff₀ hb] at h
  linarith

theorem safety_stage23_le (q1 b p L mr : ℚ) (hp : 0 < p) (hL : 0 ≤ L) :
    safety_stage23 q1 b p L mr ≤ q1 := by
  unfold safety_stage23
  by_cases hb : b > 0
  · by_cases htrig : q1 * p / b > L * (9 / 10)
    · have h2 : b * (L * (9 / 10)) / p < q1 := lev_cap_lt q1 b p L hb hp htrig
      simp only [hb, if_true, htrig, if_pos]
      split_ifs with h3
      · linarith
      · exact le_of_lt h2
    · simp only [hb, if_true, htrig, if_neg, if_false]
      split_ifs with h3
      · linarith
      · exact le_rfl
  · have hnt : ¬ ((0 : ℚ) > L * (9 / 10)) := by
      simp only [gt_iff_lt, not_lt]
      positivity
    simp only [hb, if_false, hnt, if_neg]
    split_ifs with h3
    · linarith
    · exact le_rfl

theorem apply_safety_limits_stages (q b p : ℚ) (lev : Option ℚ) (mr : ℚ) (hp0 : p ≠ 0) :
    apply_safety_limits q b p lev mr =
      match lev with
      | none => safety_stage1 q b p
      | some L => safety_stage23 (safety_stage1 q b p) b p L mr := by
  unfold apply_safety_limits apply_safety_limits_checked clampDiv safety_stage1 safety_stage23
  simp only [hp0, if_false, bind, Except.bind, pure, Except.pure, target_margin_pct]
  rcases lev with _ | L
  · by_cases hb : b > 0
    · by_cases hrisk : q * p / b * 100 > 9 / 5
      · simp [hb, hrisk]
      · simp [hb, hrisk]
    · simp [hb]
  · by_cases hb : b > 0
    · by_cases hrisk : q * p / b * 100 > 9 / 5
      · by_cases hcap : b * (9 / 5 / 100) / p < q
        · by_cases hlc : b * (9 / 5 / 100) / p * p / b > L * (9 / 10)
          · simp [hb, hrisk, hcap, hlc]
          · simp [hb, hrisk, hcap, hlc]
        · by_cases hlc : q * p / b > L * (9 / 10)
          · simp [hb, hrisk, hcap, hlc]
          · simp [hb, hrisk, hcap, hlc]
      · by_cases hlc : q * p / b > L * (9 / 10)
        · simp [hb, hrisk, hlc]
        · simp [hb, hrisk, hlc]
    · by_cases hlc : (0 : ℚ) > L * (9 / 10)
      · simp [hb, hlc]
      · simp [hb, hlc]

theorem apply_safety_limits_zero_price (q b : ℚ) (lev : Option ℚ) (mr : ℚ) :
    apply_safety_limits q b 0 lev mr = q := by
  unfold apply_safety_limits apply_safety_limits_checked clampDiv
  simp only [bind, Except.bind, pure, Except.pure, target_margin_pct]
  rcases lev with _ | L
  · by_cases hb : b > 0 <;> simp [hb]
  · by_cases hb : b > 0
    · by_cases hlc : (0 : ℚ) > L * (9 / 10) <;> simp [hb, hlc]
    · by_cases hlc : (0 : ℚ) > L * (9 / 10) <;> simp [hb, hlc]

theorem apply_safety_limits_none_eq (q b p : ℚ) (mr : ℚ) :
    apply_safety_limits q b p none mr = safety_stage1 q b p := by
  by_cases hp0 : p = 0
  · subst hp0
    rw [apply_safety_limits_zero_price]
    unfold safety_stage1
    by_cases hb : b > 0 <;> simp [hb] <;> norm_num
  · rw [apply_safety_limits_stages q b p none mr hp0]

/-
Claim theorems.
-/

/-- C2: the safety-limit stage is monotone non-increasing.  For every input
quantity, follower balance, positive trade price, nonnegative configured
leverage (possibly missing) and link maxRiskPercentage, the quantity
returned by `apply_safety_limits` (margin-ratio cap, then the cap at 90
percent of configured leverage, then the maxRiskPercentage cap, each
recomputing position value after the previous) is at most the input
quantity; no clamp ever increases the quantity, and an exception inside the
stage still returns a value no larger than the input. -/
theorem apply_safety_limits_monotone (q b p : ℚ) (lev : Option ℚ) (mr : ℚ)
    (hp : 0 < p) (hlev : ∀ L, lev = some L → 0 ≤ L) :
    apply_safety_limits q b p lev mr ≤ q := by
  rw [apply_safety_limits_stages q b p lev mr (ne_of_gt hp)]
  rcases lev with _ | L
  · exact safety_stage1_le q b p
  · exact le_trans (safety_stage23_le _ b p L mr hp (hlev L rfl))
      (safety_stage1_le q b p)

/-- Witness for C2 at a concrete input. -/
theorem apply_safety_limits_monotone_witness :
    apply_safety_limits 100 100 1 (some 10) 50 ≤ 100 :=
  apply_safety_limits_monotone 100 100 1 (some 10) 50 (by norm_num)
    (fun L h => by cases h; norm_num)

/-- C10 counterexample: an exception raised after the margin-ratio cap has
already fired does not return the input quantity unchanged.  With quantity
100, balance 100, trade price 1 and a missing (NULL) leverage setting, the
margin cap first shrinks the quantity to 1.8; the `leverage * 0.9`
computation then raises, and the handler returns 1.8, not 100. -/
theorem safety_bypass_claim_false :
    apply_safety_limits 100 100 1 none 50 ≠ 100 := by
  rw [apply_safety_limits_none_eq]
  unfold safety_stage1
  norm_num

/-- C10 (amended): an exception inside the safety-limit stage returns the
quantity as computed so far, not necessarily the input.  An exception
raised before any clamp (a zero trade price makes every division raise)
passes the input through unchanged with every clamp skipped; an exception
raised later (a NULL leverage setting raising at the second clamp) returns
the margin-capped quantity, keeping the clamp already applied and skipping
the rest. -/
theorem apply_safety_limits_error_behavior :
    (∀ q b : ℚ, ∀ lev : Option ℚ, ∀ mr : ℚ, apply_safety_limits q b 0 lev mr = q) ∧
      (∀ q b p mr : ℚ, apply_safety_limits q b p none mr = safety_stage1 q b p) :=
  ⟨fun q b lev mr => apply_safety_limits_zero_price q b lev mr,
    fun q b p mr => apply_safety_limits_none_eq q b p mr⟩

/-- C4: balance-ratio sizing.  With both equities positive and a positive
mark price, the quantity computed by `calculate_balance_ratio_quantity`
(before copy-percentage scaling and safety clamps) equals
masterQuantity * markPrice * (followerEquity / masterEquity) / markPrice,
and the follower notional over follower equity equals the master notional
over master equity exactly (the embedding has no lot-size rounding). -/
theorem balance_ratio_sizing (mq mB fB mp : ℚ)
    (hmB : 0 < mB) (hfB : 0 < fB) (hmp : 0 < mp) :
    calculate_balance_ratio_quantity mq mB fB mp = mq * mp * (fB / mB) / mp ∧
      calculate_balance_ratio_quantity mq mB fB mp * mp / fB = mq * mp / mB := by
  unfold calculate_balance_ratio_quantity
  constructor
  · ring
  · field_simp
    ring

/-- Witness for C4 at a concrete input. -/
theorem balance_ratio_sizing_witness :
    calculate_balance_ratio_quantity 10 100 1000 2 = 10 * 2 * (1000 / 100) / 2 ∧
      calculate_balance_ratio_quantity 10 100 1000 2 * 2 / 1000 = 10 * 2 / 100 :=
  balance_ratio_sizing 10 100 1000 2 (by norm_num) (by norm_num) (by norm_num)

theorem new_order_filter_iff (S now t : Int) :
    process_master_order_time_filter t S now "NEW" false = true ↔
      S ≤ t ∧ now - 600 ≤ t := by
  unfold process_master_order_time_filter
  by_cases h1 : t < S
  · rw [if_pos h1]
    simp
    omega
  · rw [if_neg h1, if_neg (by simp : ¬ (false = true)),
      if_neg (by decide : ¬ ("NEW" ∈ cancelStatuses)),
      if_pos (Or.inl rfl)]
    simp
    omega

/-- C3 counterexample: the claim's eligibility window
max(serviceStartTime, now - 5 minutes) is not what the code enforces.
With serviceStartTime 0 and now = 3600, a NEW order opened at 3180 (7
minutes old, after the service start) passes the code's filters and is
processed, although 3180 is below the claim's threshold
max(0, 3600 - 300) = 3300. -/
theorem startup_window_claim_false :
    process_master_order_time_filter 3180 0 3600 "NEW" false = true ∧
      (3180 : ℤ) < max 0 (3600 - 300) := by
  constructor
  · decide
  · decide

/-- C3 (amended): the startup protection requires, on every tick and not
only the first, that the observed open time be at least serviceStartTime
and within the status-dependent age window, which for NEW orders is 10
minutes (not 5).  A NEW order is eligible exactly when
serviceStartTime ≤ openTime and now - 600 ≤ openTime; an order opened 10
minutes before serviceStartTime is never processed (any status); an order
opened 1 minute after serviceStartTime is processed on a first tick
occurring within the 10-minute window. -/
theorem startup_window_amended (S now : Int) (status : String) (pc : Bool) :
    (∀ t, process_master_order_time_filter t S now "NEW" false = true ↔
        S ≤ t ∧ now - 600 ≤ t)
    ∧ process_master_order_time_filter (S - 600) S now status pc = false
    ∧ (now - 600 ≤ S + 60 →
        process_master_order_time_filter (S + 60) S now "NEW" false = true) := by
  refine ⟨fun t => new_order_filter_iff S now t, ?_, fun h => ?_⟩
  · unfold process_master_order_time_filter
    rw [if_pos (by omega)]
  · rw [new_order_filter_iff]
    omega

/-- Witness for C3 (amended) at a concrete input. -/
theorem startup_window_amended_witness :
    process_master_order_time_filter 60 0 100 "NEW" false = true :=
  (startup_window_amended 0 100 "LIMIT" false).2.2 (by omega)

/-- C8 counterexample: after startup, processing does not depend purely on
novelty.  Two NEW orders both opened after the service start (serverStart 0,
now = 3600) and both novel in the diff are treated differently solely by
age: the one opened at 3300 (5 minutes old) is processed, the one opened at
2400 (20 minutes old) is skipped by the 10-minute age window. -/
theorem post_startup_claim_false :
    process_master_order_time_filter 2400 0 3600 "NEW" false = false ∧
      process_master_order_time_filter 3300 0 3600 "NEW" false = true := by
  constructor
  · decide
  · decide

/-- C8 (amended): after the first tick for a master the startup flag is
set, but the per-order age windows keep applying on every subsequent tick:
a NEW order is acted on exactly when it opened after the service start and
within the last 10 minutes, independently of any startup state (the filter
takes no startup flag at all). -/
theorem post_startup_age_still_applies (sc : List Int) (masterId S now : Int) :
    masterId ∈ startup_complete_after_check sc masterId ∧
      (∀ t, process_master_order_time_filter t S now "NEW" false = true ↔
        S ≤ t ∧ now - 600 ≤ t) := by
  constructor
  · unfold startup_complete_after_check
    split_ifs with h
    · exact h
    · exact List.mem_cons_self masterId sc
  · exact fun t => new_order_filter_iff S now t

theorem pythonRound_intCast (n : ℤ) : pythonRound (n : ℚ) = n := by
  unfold pythonRound
  rw [Int.floor_intCast]
  simp

theorem round8_of_den_one (x : ℚ) (h : (x * 100000000).den = 1) : round8 x = x := by
  unfold round8
  have hx : ((x * 100000000).num : ℚ) = x * 100000000 := by
    rw [← Rat.den_eq_one_iff]
    exact h
  have : pythonRound (x * 100000000) = (x * 100000000).num := by
    calc pythonRound (x * 100000000) = pythonRound (((x * 100000000).num : ℤ) : ℚ) := by
          rw [hx]
      _ = (x * 100000000).num := pythonRound_intCast _
  rw [this, hx]
  field_simp

/-- C6: full close on Close events.  When a follower holds a position in
the symbol opposite to the master's order side (the scanning loop of
`close_follower_positions` finds it), the close order is sized to the
follower's entire position: for an exchange-representable size (at most 8
decimals, at least the 0.001 floor) the computed close quantity equals the
position size exactly, and it is independent of the link's copyPercentage
(and of every other link field): any two link configurations yield the same
close quantity. -/
theorem close_full_position (cfg : CopyTradingConfig) (ps : List PositionSnapshot)
    (mt : TradeRow) (pos : PositionSnapshot)
    (hfind : find_position_to_close ps mt.symbol mt.side = some pos)
    (hden : (pos.size * 100000000).den = 1)
    (hsz : 1 / 1000 ≤ pos.size) :
    close_follower_position_quantity cfg ps mt = some pos.size ∧
      ∀ cfg2 : CopyTradingConfig,
        close_follower_position_quantity cfg2 ps mt =
          close_follower_position_quantity cfg ps mt := by
  constructor
  · unfold close_follower_position_quantity
    rw [hfind]
    show some (close_quantity pos.size) = some pos.size
    unfold close_quantity
    rw [round8_of_den_one pos.size hden, max_eq_right hsz]
  · intro cfg2
    rfl

/-- Witness for C6 at a concrete input: a follower LONG 10 XRPUSDT position
closed in full by a master SELL. -/
theorem close_full_position_witness :
    close_follower_position_quantity
        { masterAccountId := 1, followerAccountId := 2, isActive := true,
          copyPercentage := 7, riskMultiplier := 1, maxRiskPercentage := 50 }
        [{ symbol := "XRPUSDT", side := "LONG", size := 10 }]
        { id := 5, accountId := 1, symbol := "XRPUSDT", side := "SELL",
          orderType := "MARKET", quantity := 10, price := 3, status := "FILLED",
          binanceOrderId := "77", copiedFromMaster := false, masterTradeId := none,
          createdAt := 0 }
      = some 10 :=
  (close_full_position
    { masterAccountId := 1, followerAccountId := 2, isActive := true,
      copyPercentage := 7, riskMultiplier := 1, maxRiskPercentage := 50 }
    [{ symbol := "XRPUSDT", side := "LONG", size := 10 }]
    { id := 5, accountId := 1, symbol := "XRPUSDT", side := "SELL",
      orderType := "MARKET", quantity := 10, price := 3, status := "FILLED",
      binanceOrderId := "77", copiedFromMaster := false, masterTradeId := none,
      createdAt := 0 }
    { symbol := "XRPUSDT", side := "LONG", size := 10 }
    rfl
    (by
      have h : ((10 : ℚ) * 100000000) = ((1000000000 : ℤ) : ℚ) := by norm_num
      rw [h, Rat.den_intCast])
    (by norm_num)).1

/-- C9 counterexample: the fallback cancellation does not cancel every
follower trade matching symbol, side, follower and the 30-minute window, as
the claim states: it additionally requires status PENDING or
PARTIALLY_FILLED.  A FILLED follower trade of the right symbol, side,
follower and time is matched by the claim's criteria but selected by
nothing. -/
theorem cancellation_claim_false :
    handle_cancellation_by_order_details_targets [exampleFilledFollowerTrade]
        [exampleConfig] 1 "XRPUSDT" "BUY" 1000 = [] ∧
      exampleFilledFollowerTrade.symbol = "XRPUSDT" ∧
      exampleFilledFollowerTrade.side = "BUY" ∧
      (1000 : ℤ) - 1800 ≤ exampleFilledFollowerTrade.createdAt ∧
      exampleFilledFollowerTrade.createdAt ≤ (1000 : ℤ) + 1800 ∧
      exampleFilledFollowerTrade.accountId ∈ active_follower_ids [exampleConfig] 1 := by
  refine ⟨?_, rfl, rfl, by decide, by decide, by decide⟩
  decide

/-- C9 (amended): cancellation propagation.  With a recorded master trade,
exactly the follower trades referencing it via masterTradeId with status in
PENDING or PARTIALLY_FILLED are selected for exchange cancellation (using
the data-model invariant that rows carrying a masterTradeId are follower
copies).  With no recorded master trade, exactly the follower trades of the
master's active links matching the cancelled order's symbol and side, with
status in PENDING or PARTIALLY_FILLED, created within 30 minutes either
side of the order time, are selected. -/
theorem cancellation_propagation (trades : List TradeRow)
    (configs : List CopyTradingConfig) (masterTrade : TradeRow) (masterId : Int)
    (symbol side : String) (orderTime : Int)
    (hlinked : ∀ t ∈ trades, t.masterTradeId = some masterTrade.id →
      t.copiedFromMaster = true) :
    (∀ t, t ∈ handle_master_order_cancellation_with_trade_targets trades masterTrade ↔
      (t ∈ trades ∧ t.masterTradeId = some masterTrade.id ∧
        (t.status = "PENDING" ∨ t.status = "PARTIALLY_FILLED"))) ∧
    (∀ t, t ∈ handle_cancellation_by_order_details_targets trades configs masterId
        symbol side orderTime ↔
      (t ∈ trades ∧ t.symbol = symbol ∧ t.side = side ∧ t.copiedFromMaster = true ∧
        (t.status = "PENDING" ∨ t.status = "PARTIALLY_FILLED") ∧
        orderTime - 1800 ≤ t.createdAt ∧ t.createdAt ≤ orderTime + 1800 ∧
        t.accountId ∈ active_follower_ids configs masterId)) := by
  constructor
  · intro t
    simp only [handle_master_order_cancellation_with_trade_targets, List.mem_filter,
      Bool.and_eq_true, beq_iff_eq, cancellableStatus, Bool.or_eq_true]
    constructor
    · rintro ⟨hmem, ⟨hid, _⟩, hst⟩
      exact ⟨hmem, hid, hst⟩
    · rintro ⟨hmem, hid, hst⟩
      exact ⟨hmem, ⟨hid, hlinked t hmem hid⟩, hst⟩
  · intro t
    simp only [handle_cancellation_by_order_details_targets, List.mem_filter,
      Bool.and_eq_true, beq_iff_eq, cancellableStatus, Bool.or_eq_true,
      decide_eq_true_eq]
    tauto

/-- Witness for C9 (amended): the pending follower copy of the example
master trade is selected for cancellation. -/
theorem cancellation_propagation_witness :
    exampleFollowerTrade ∈ handle_master_order_cancellation_with_trade_targets
      [exampleFollowerTrade] exampleMasterTrade :=
  ((cancellation_propagation [exampleFollowerTrade] [] exampleMasterTrade 1
      "XRPUSDT" "BUY" 0 (by decide)).1 exampleFollowerTrade).mpr
    ⟨List.mem_singleton.mpr rfl, rfl, Or.inl rfl⟩

theorem mem_insertByTimeDesc {t x : TradeRow} {l : List TradeRow} :
    t ∈ insertByTimeDesc x l ↔ t = x ∨ t ∈ l := by
  induction l with
  | nil => simp [insertByTimeDesc]
  | cons h rest ih =>
    unfold insertByTimeDesc
    split_ifs with hle
    · simp [List.mem_cons]
    · simp only [List.mem_cons, ih]
      tauto

theorem mem_sortByTimeDesc {t : TradeRow} {l : List TradeRow} :
    t ∈ sortByTimeDesc l ↔ t ∈ l := by
  induction l with
  | nil => simp [sortByTimeDesc]
  | cons h rest ih =>
    unfold sortByTimeDesc
    rw [mem_insertByTimeDesc, ih, List.mem_cons]

theorem mem_classifier_recent_trades {t tr : TradeRow} {trades : List TradeRow}
    {masterId : Int} {now : Int}
    (h : t ∈ classifier_recent_trades trades masterId tr now) :
    t ∈ trades ∧ t.accountId = masterId ∧ t.symbol = tr.symbol ∧
      (t.status = "FILLED" ∨ t.status = "PARTIALLY_FILLED") ∧
      now - 21600 ≤ t.createdAt ∧ t.id ≠ tr.id := by
  unfold classifier_recent_trades at h
  have h2 := List.take_subset 50 _ h
  rw [mem_sortByTimeDesc, List.mem_filter] at h2
  obtain ⟨hmem, hp⟩ := h2
  simp only [Bool.and_eq_true, beq_iff_eq, Bool.or_eq_true, decide_eq_true_eq] at hp
  exact ⟨hmem, hp.1.1.1.1, hp.1.1.1.2, hp.1.1.2, hp.1.2, hp.2⟩

theorem classifier_step4_false (env : ClassifierEnv) (trades : List TradeRow)
    (masterId : Int) (tr : TradeRow) (oppositeSide : String)
    (h : ∀ t ∈ trades, t.accountId = masterId → t.symbol = tr.symbol →
      t.side ≠ oppositeSide ∨
        ¬ (t.status = "FILLED" ∨ t.status = "PARTIALLY_FILLED") ∨
        ¬ (env.now - 3600 ≤ t.createdAt)) :
    classifier_step4 env trades masterId tr oppositeSide = false := by
  have hfilter : (trades.filter fun t =>
      t.accountId == masterId && t.symbol == tr.symbol && t.side == oppositeSide &&
        (t.status == "FILLED" || t.status == "PARTIALLY_FILLED") &&
        decide (env.now - 3600 ≤ t.createdAt)) = [] := by
    rw [List.filter_eq_nil_iff]
    intro t hmem
    simp only [Bool.and_eq_true, beq_iff_eq, Bool.or_eq_true, decide_eq_true_eq]
    rintro ⟨⟨⟨⟨ha, hs⟩, hside⟩, hstat⟩, htime⟩
    rcases h t hmem ha hs with hc | hc | hc
    · exact hc hside
    · exact hc hstat
    · exact hc htime
  unfold classifier_step4
  rw [hfilter]
  simp

/-- C5: the classifier defaults to Entry.  When no follower of the master's
active links holds a position in the order's symbol opposite to the order
side, the master holds no opposite position in the symbol, and the bounded
trade-history analysis has no opposite-side signal (no filled or partially
filled opposite-side master trade in the symbol within the 6-hour
lookback), `is_position_closing_order` returns false, and the dispatch of
`process_master_order` for a non-reduce-only order therefore copies the
trade to followers; the dispatch has no dropping outcome, and the
classifier's own exception handler also returns false (Entry). -/
theorem classifier_defaults_to_entry (env : ClassifierEnv)
    (configs : List CopyTradingConfig) (masterId : Int) (tr : TradeRow)
    (trades : List TradeRow)
    (hFollower : ∀ c ∈ active_configs_for_master configs masterId,
      ∀ pos ∈ env.followerPositions c.followerAccountId,
        pos.symbol = tr.symbol → isCloseMatch pos.side tr.side = false)
    (hMaster : ∀ pos ∈ env.masterPositions,
      pos.symbol = tr.symbol → isCloseMatch pos.side tr.side = false)
    (hHistory : ∀ t ∈ trades, t.accountId = masterId → t.symbol = tr.symbol →
      (t.status = "FILLED" ∨ t.status = "PARTIALLY_FILLED") →
      env.now - 21600 ≤ t.createdAt →
      t.side ≠ (if tr.side = "SELL" then "BUY" else "SELL")) :
    is_position_closing_order env configs masterId tr trades = false ∧
      master_order_routing false
        (is_position_closing_order env configs masterId tr trades) = "copy" := by
  have hchecked : is_position_closing_order_checked env configs masterId tr trades
      = Except.ok false := by
    unfold is_position_closing_order_checked
    by_cases hmc : env.hasMasterClient = true
    · have h0 : ((active_configs_for_master configs masterId).any fun c =>
          env.hasFollowerClient c.followerAccountId &&
            ((env.followerPositions c.followerAccountId).any fun pos =>
              pos.symbol == tr.symbol && decide (|pos.size| > 1 / 1000) &&
                isCloseMatch pos.side tr.side)) = false := by
        rw [List.any_eq_false]
        intro c hc
        simp only [Bool.and_eq_true, List.any_eq_true, not_and, not_exists]
        intro _ pos hpos
        simp only [Bool.and_eq_true, beq_iff_eq, not_and]
        rintro ⟨hsym, -⟩
        rw [hFollower c hc pos hpos hsym]
        exact Bool.false_ne_true
      · have h2m : (env.masterPositions.any fun pos =>
            pos.symbol == tr.symbol && isCloseMatch pos.side tr.side) = false := by
          rw [List.any_eq_false]
          intro pos hpos
          simp only [Bool.and_eq_true, beq_iff_eq, not_and]
          intro hsym
          rw [hMaster pos hpos hsym]
          exact Bool.false_ne_true
        have hrec : ((classifier_recent_trades trades masterId tr env.now).filter
            fun t => t.side == (if tr.side = "SELL" then "BUY" else "SELL")) = [] := by
          rw [List.filter_eq_nil_iff]
          intro t hmem
          obtain ⟨htm, ha, hs, hstat, htime, -⟩ := mem_classifier_recent_trades hmem
          simp only [beq_iff_eq]
          exact hHistory t htm ha hs hstat htime
        have h4 : classifier_step4 env trades masterId tr
            (if tr.side = "SELL" then "BUY" else "SELL") = false := by
          apply classifier_step4_false
          intro t htm ha hs
          by_cases hstat : t.status = "FILLED" ∨ t.status = "PARTIALLY_FILLED"
          · by_cases htime : env.now - 3600 ≤ t.createdAt
            · exact Or.inl (hHistory t htm ha hs hstat (by omega))
            · exact Or.inr (Or.inr htime)
          · exact Or.inr (Or.inl hstat)
        simp only [hmc, h0, h2m, hrec, not_true, Bool.false_eq_true, if_false,
          ite_false, reduceIte, List.head?_nil, h4, pure, Except.pure]
    · rw [if_pos hmc]
      rfl
  constructor
  · unfold is_position_closing_order
    rw [hchecked]
  · unfold master_order_routing is_position_closing_order
    rw [hchecked]
    rfl

/-- Witness for C5 at a concrete input: no links, no positions, no
history — the order is classified Entry and routed to the copy path. -/
theorem classifier_defaults_to_entry_witness :
    is_position_closing_order
        { hasMasterClient := true, hasFollowerClient := fun _ => false,
          followerPositions := fun _ => [], masterPositions := [], now := 0 }
        [] 1 exampleMasterTrade [] = false ∧
      master_order_routing false
        (is_position_closing_order
          { hasMasterClient := true, hasFollowerClient := fun _ => false,
            followerPositions := fun _ => [], masterPositions := [], now := 0 }
          [] 1 exampleMasterTrade []) = "copy" :=
  classifier_defaults_to_entry
    { hasMasterClient := true, hasFollowerClient := fun _ => false,
      followerPositions := fun _ => [], masterPositions := [], now := 0 }
    [] 1 exampleMasterTrade []
    (by intro c hc; simp [active_configs_for_master] at hc)
    (by intro pos hp; simp at hp)
    (by intro t ht; simp at ht)

theorem countP_notMem_cons_lt {l att : List Int} {x : Int} (hxl : x ∈ l) (hx : x ∉ att) :
    l.countP (fun a => decide (a ∉ x :: att)) < l.countP (fun a => decide (a ∉ att)) := by
  induction l with
  | nil => cases hxl
  | cons b rest ih =>
    rw [List.countP_cons, List.countP_cons]
    have hmono : rest.countP (fun a => decide (a ∉ x :: att)) ≤
        rest.countP (fun a => decide (a ∉ att)) := by
      apply List.countP_mono_left
      intro a _ ha
      simp only [decide_eq_true_eq, List.mem_cons, not_or] at ha ⊢
      exact ha.2
    rcases List.mem_cons.mp hxl with hb | hb
    · subst hb
      have h1 : (decide (x ∉ x :: att)) = false := by simp
      have h2 : (decide (x ∉ att)) = true := by simp [hx]
      simp only [h1, h2, Bool.false_eq_true, if_false, if_true, reduceIte]
      omega
    · have := ih hb
      have hb2 : (if decide (b ∉ x :: att) = true then 1 else 0) ≤
          (if decide (b ∉ att) = true then 1 else 0) := by
        by_cases hmem : b ∈ att
        · simp [hmem]
        · by_cases hbx : b = x <;> simp [hmem, hbx]
      omega

theorem escalationChained_cons (x : ℚ × Int) (l : List (ℚ × Int))
    (hl : EscalationChained l)
    (h : ∀ a, l.head? = some a → a.2 ≠ x.2 → a.1 = x.1 ∧ x.2 < a.2) :
    EscalationChained (x :: l) := by
  cases l with
  | nil => trivial
  | cons b rest => exact ⟨h b rfl, hl⟩



theorem place_loop_invariant (envOutcome : Nat → PlaceOutcome)
    (setLeverageOk : Int → Bool) (adjust : ℚ → ℚ) (price : ℚ) :
    ∀ fuel idx q lev attempted retry,
      let r := place_follower_trade_loop envOutcome setLeverageOk adjust price fuel
        idx q lev attempted retry
      (leverage_steps.countP (fun a => decide (a ∉ attempted)) + (3 - retry) + 1 ≤ fuel →
        r.outcome ≠ DispatchOutcome.fuelOut) ∧
      (retry ≤ 3 → r.halvings + retry ≤ 3) ∧
      (∀ pq ∈ r.proposals, ¬ (price ≠ 0 ∧ pq * price < 5)) ∧
      EscalationChained r.attempts ∧
      (∀ a, r.attempts.head? = some a → a = (q, lev)) := by
  intro fuel
  induction fuel with
  | zero =>
    intro idx q lev attempted retry
    refine ⟨fun h => absurd h (by omega),
      by intro hr; simpa [place_follower_trade_loop] using hr,
      by intro pq hpq; exact absurd hpq (by simp [place_follower_trade_loop]),
      by simp only [place_follower_trade_loop]; trivial,
      by intro a ha; exact absurd ha (by simp [place_follower_trade_loop])⟩
  | succ fuel ih =>
    intro idx q lev attempted retry
    cases houtcome : envOutcome idx with
    | success =>
      simp only [place_follower_trade_loop, houtcome]
      refine ⟨fun _ => by simp, by intro hr; simpa using hr, by simp, by exact ⟨⟩,
        by intro a ha; exact (show (q, lev) = a by simpa using ha).symm⟩
    | otherError =>
      simp only [place_follower_trade_loop, houtcome]
      refine ⟨fun _ => by simp, by intro hr; simpa using hr, by simp, by exact ⟨⟩,
        by intro a ha; exact (show (q, lev) = a by simpa using ha).symm⟩
    | marginError =>
      simp only [place_follower_trade_loop, houtcome]
      cases hnl : next_leverage lev attempted with
      | some nl =>
        have hnlp := List.find?_some hnl
        have hnlm := List.mem_of_find?_eq_some hnl
        simp only [Bool.and_eq_true, decide_eq_true_eq] at hnlp
        have hcount : leverage_steps.countP (fun a => decide (a ∉ nl :: attempted)) <
            leverage_steps.countP (fun a => decide (a ∉ attempted)) :=
          countP_notMem_cons_lt hnlm hnlp.2
        by_cases hset : setLeverageOk nl = true
        · simp only [hset, if_true, reduceIte]
          obtain ⟨ih1, ih2, ih3, ih4, ih5⟩ := ih (idx + 1) q nl (nl :: attempted) retry
          refine ⟨fun hfuel => ?_, fun hr => ?_, ?_, ?_, ?_⟩
          · simpa using ih1 (by omega)
          · simpa using ih2 hr
          · simpa using ih3
          · refine escalationChained_cons (q, lev) _ ih4 ?_
            intro a ha hne
            have h5 := ih5 a ha
            subst h5
            exact ⟨rfl, hnlp.1⟩
          · intro a ha
            have h2 : (q, lev) = a := by simpa using ha
            exact h2.symm
        · simp only [hset, if_false, Bool.false_eq_true, reduceIte]
          by_cases hr3 : retry ≥ 3
          · simp only [hr3, if_true, reduceIte]
            refine ⟨fun _ => by simp, by intro hr; simpa using hr, by simp, by exact ⟨⟩,
              by intro a ha; exact (show (q, lev) = a by simpa using ha).symm⟩
          · simp only [hr3, if_false, reduceIte]
            by_cases hguard : price ≠ 0 ∧ q * (1 / 2) * price < 5
            · obtain ⟨hg1, hg2⟩ := hguard
              simp only [hg1, hg2, ne_eq, not_false_eq_true, and_self, if_true,
                if_false, reduceIte]
              refine ⟨fun _ => by simp, by intro hr; simpa using hr, by simp, by exact ⟨⟩,
                by intro a ha; exact (show (q, lev) = a by simpa using ha).symm⟩
            · simp only [hguard, if_false, reduceIte]
              obtain ⟨ih1, ih2, ih3, ih4, ih5⟩ :=
                ih (idx + 1) (adjust (q * (1 / 2))) lev (nl :: attempted) (retry + 1)
              refine ⟨fun hfuel => ?_, fun hr => ?_, ?_, ?_, ?_⟩
              · simpa using ih1 (by omega)
              · have h2 := ih2 (by omega)
                simp only [DispatchTrace.halvings] at h2 ⊢
                omega
              · intro pq hpq
                simp only [DispatchTrace.proposals, List.mem_cons] at hpq
                rcases hpq with hpq | hpq
                · subst hpq
                  exact hguard
                · exact ih3 pq hpq
              · refine escalationChained_cons (q, lev) _ ih4 ?_
                intro a ha hne
                have h5 := ih5 a ha
                subst h5
                exact absurd rfl hne
              · intro a ha
                have h2 : (q, lev) = a := by simpa using ha
                exact h2.symm
      | none =>
        by_cases hr3 : retry ≥ 3
        · simp only [hr3, if_true, reduceIte]
          refine ⟨fun _ => by simp, by intro hr; simpa using hr, by simp, by exact ⟨⟩,
            by intro a ha; exact (show (q, lev) = a by simpa using ha).symm⟩
        · simp only [hr3, if_false, reduceIte]
          by_cases hguard : price ≠ 0 ∧ q * (1 / 2) * price < 5
          · obtain ⟨hg1, hg2⟩ := hguard
            simp only [hg1, hg2, ne_eq, not_false_eq_true, and_self, if_true,
              if_false, reduceIte]
            refine ⟨fun _ => by simp, by intro hr; simpa using hr, by simp, by exact ⟨⟩,
              by intro a ha; exact (show (q, lev) = a by simpa using ha).symm⟩
          · simp only [hguard, if_false, reduceIte]
            obtain ⟨ih1, ih2, ih3, ih4, ih5⟩ :=
              ih (idx + 1) (adjust (q * (1 / 2))) lev attempted (retry + 1)
            refine ⟨fun hfuel => ?_, fun hr => ?_, ?_, ?_, ?_⟩
            · simpa using ih1 (by omega)
            · have h2 := ih2 (by omega)
              simp only [DispatchTrace.halvings] at h2 ⊢
              omega
            · intro pq hpq
              simp only [DispatchTrace.proposals, List.mem_cons] at hpq
              rcases hpq with hpq | hpq
              · subst hpq
                exact hguard
              · exact ih3 pq hpq
            · refine escalationChained_cons (q, lev) _ ih4 ?_
              intro a ha hne
              have h5 := ih5 a ha
              subst h5
              exact absurd rfl hne
            · intro a ha
              have h2 : (q, lev) = a := by simpa using ha
              exact h2.symm

/-- C7: bounded insufficient-margin retry.  For every environment (exchange
responses, set-leverage outcomes, precision adjustment) and positive master
price, the placement loop of `place_follower_trade` terminates within its
fixed budget (never exhausting the fuel bound 9, i.e. no crash or hang: it
ends in a placed order, a skip, or a re-raised non-margin error handled as
failure by the outer handler); it performs at most 3 quantity halvings;
every halved quantity it accepts keeps the order notional at or above the
5-dollar exchange minimum; and between consecutive attempts a leverage
change always climbs the ladder with the quantity unchanged (escalation is
tried first, one retry per untried higher rung, at the same quantity). -/
theorem insufficient_margin_retry_bounded (envOutcome : Nat → PlaceOutcome)
    (setLeverageOk : Int → Bool) (adjust : ℚ → ℚ) (price : ℚ) (q0 : ℚ) (lev0 : Int)
    (hp : 0 < price) :
    (place_follower_trade_dispatch envOutcome setLeverageOk adjust price q0
        lev0).outcome ≠ DispatchOutcome.fuelOut ∧
      (place_follower_trade_dispatch envOutcome setLeverageOk adjust price q0
        lev0).halvings ≤ 3 ∧
      (∀ pq ∈ (place_follower_trade_dispatch envOutcome setLeverageOk adjust price q0
        lev0).proposals, 5 ≤ pq * price) ∧
      EscalationChained (place_follower_trade_dispatch envOutcome setLeverageOk adjust
        price q0 lev0).attempts := by
  obtain ⟨h1, h2, h3, h4, -⟩ :=
    place_loop_invariant envOutcome setLeverageOk adjust price 9 0 q0 lev0 [lev0] 0
  refine ⟨h1 ?_, by simpa using h2 (by omega), ?_, h4⟩
  · have hle := List.countP_le_length (p := fun a => decide (a ∉ [lev0]))
      (l := leverage_steps)
    have hlen : leverage_steps.length = 5 := by rfl
    omega
  · intro pq hpq
    have h5 := h3 pq hpq
    rcases not_and_or.mp h5 with h6 | h6
    · exact absurd (ne_of_gt hp) h6
    · exact le_of_not_lt h6

/-- Witness for C7 at a concrete input. -/
theorem insufficient_margin_retry_bounded_witness :
    (place_follower_trade_dispatch (fun _ => PlaceOutcome.success) (fun _ => true)
        id 1 100 10).outcome ≠ DispatchOutcome.fuelOut ∧
      (place_follower_trade_dispatch (fun _ => PlaceOutcome.success) (fun _ => true)
        id 1 100 10).halvings ≤ 3 ∧
      (∀ pq ∈ (place_follower_trade_dispatch (fun _ => PlaceOutcome.success)
        (fun _ => true) id 1 100 10).proposals, 5 ≤ pq * 1) ∧
      EscalationChained (place_follower_trade_dispatch (fun _ => PlaceOutcome.success)
        (fun _ => true) id 1 100 10).attempts :=
  insufficient_margin_retry_bounded (fun _ => PlaceOutcome.success) (fun _ => true)
    id 1 100 10 (by norm_num)

theorem count_refs_eq_zero (trades : List TradeRow) (bound : Int)
    (h : ∀ t ∈ trades, ∀ j, t.masterTradeId = some j → j < bound) (accId : Int) :
    count_follower_refs trades bound accId = 0 := by
  unfold count_follower_refs
  rw [List.countP_eq_zero]
  intro f hf
  simp only [Bool.and_eq_true, beq_iff_eq, not_and]
  intro hmid
  exact absurd (h f hf bound hmid) (lt_irrefl bound)

theorem count_refs_markCopied (led : Ledger) (tid mid accId : Int) :
    count_follower_refs (markCopied led tid).trades mid accId =
      count_follower_refs led.trades mid accId := by
  unfold count_follower_refs markCopied
  rw [List.countP_map]
  apply List.countP_congr
  intro t _
  by_cases h : t.id = tid <;> simp [h, Function.comp]

theorem count_refs_insert_le (led : Ledger) (mk : Int → TradeRow) (mid accId : Int) :
    count_follower_refs (insertTrade led mk).trades mid accId ≤
      count_follower_refs led.trades mid accId +
        (if (mk led.nextId).accountId = accId then 1 else 0) := by
  unfold count_follower_refs insertTrade
  dsimp only
  rw [List.countP_append]
  have h1 : List.countP (fun f => f.masterTradeId == some mid && f.accountId == accId)
      [mk led.nextId] ≤ if (mk led.nextId).accountId = accId then 1 else 0 := by
    rw [List.countP_cons]
    simp only [List.countP_nil, Nat.zero_add, Bool.and_eq_true, beq_iff_eq]
    split_ifs with h1 h2 <;> simp_all
  omega

theorem dup_check_of_flagged (trades : List TradeRow)
    (configs : List CopyTradingConfig) (masterId : Int) (o : OrderEvent)
    (currentId : Int) (now : Int)
    (h : ∃ m ∈ trades, m.accountId = masterId ∧ m.binanceOrderId = o.orderId ∧
      m.copiedFromMaster = true) :
    duplicate_copy_check trades configs masterId o currentId now = true := by
  obtain ⟨m, hm, h1, h2, h3⟩ := h
  unfold duplicate_copy_check
  simp only [Bool.or_eq_true]
  refine Or.inl (Or.inr ?_)
  rw [List.any_eq_true]
  exact ⟨m, hm, by simp [h1, h2, h3]⟩

theorem foldl_count_refs_le (mid accId : Int)
    (step : Ledger → CopyTradingConfig → Ledger)
    (hstep : ∀ acc c, count_follower_refs (step acc c).trades mid accId ≤
      count_follower_refs acc.trades mid accId +
        (if c.followerAccountId = accId then 1 else 0)) :
    ∀ (cfgs : List CopyTradingConfig) (led0 : Ledger),
      cfgs.Pairwise (fun c₁ c₂ => c₁.followerAccountId ≠ c₂.followerAccountId) →
      count_follower_refs (cfgs.foldl step led0).trades mid accId ≤
        count_follower_refs led0.trades mid accId +
          (if accId ∈ cfgs.map (fun c => c.followerAccountId) then 1 else 0) := by
  intro cfgs
  induction cfgs with
  | nil =>
    intro led0 _
    simp [List.foldl]
  | cons c cfgs ih =>
    intro led0 hpair
    rw [List.pairwise_cons] at hpair
    obtain ⟨hc, hp⟩ := hpair
    rw [List.foldl_cons]
    by_cases heq : c.followerAccountId = accId
    · have hnotin : accId ∉ cfgs.map (fun c => c.followerAccountId) := by
        intro hmem
        rw [List.mem_map] at hmem
        obtain ⟨c2, hc2, he2⟩ := hmem
        exact hc c2 hc2 (heq.trans he2.symm)
      have h1 := ih (step led0 c) hp
      have h2 := hstep led0 c
      have hmem2 : accId ∈ (c :: cfgs).map (fun c => c.followerAccountId) := by
        rw [List.map_cons, List.mem_cons]
        exact Or.inl heq.symm
      simp only [hnotin, if_false, hmem2, if_true, heq, reduceIte] at h1 h2 ⊢
      omega
    · have h1 := ih (step led0 c) hp
      have h2 := hstep led0 c
      simp only [heq, if_false, reduceIte] at h2
      simp only [List.map_cons, List.mem_cons]
      by_cases hmem : accId ∈ cfgs.map (fun c => c.followerAccountId)
      · simp only [hmem, if_true, reduceIte] at h1
        have hd : (accId = c.followerAccountId ∨
            accId ∈ cfgs.map fun c => c.followerAccountId) := Or.inr hmem
        simp only [hd, if_true, reduceIte]
        omega
      · simp only [hmem, if_false, reduceIte] at h1
        split_ifs
        · omega
        · omega

theorem copy_count_refs_le (env : EngineEnv) (configs : List CopyTradingConfig)
    (masterTrade : TradeRow) (led0 : Ledger) (mid accId : Int)
    (hpair : (active_configs_for_master configs masterTrade.accountId).Pairwise
      (fun c₁ c₂ => c₁.followerAccountId ≠ c₂.followerAccountId)) :
    count_follower_refs (copy_trade_to_followers env configs masterTrade led0).trades
        mid accId ≤ count_follower_refs led0.trades mid accId + 1 := by
  unfold copy_trade_to_followers
  by_cases hempty :
      (active_configs_for_master configs masterTrade.accountId).isEmpty = true
  · simp only [hempty, if_true, reduceIte]
    omega
  · simp only [hempty, Bool.false_eq_true, if_false, reduceIte]
    rw [count_refs_markCopied]
    refine le_trans (foldl_count_refs_le mid accId _ ?_ _ led0 hpair) ?_
    · intro acc c
      have hins := count_refs_insert_le acc (fun i =>
        { id := i, accountId := c.followerAccountId, symbol := masterTrade.symbol,
          side := masterTrade.side, orderType := masterTrade.orderType,
          quantity := env.quantityFor c, price := masterTrade.price, status := "PENDING",
          binanceOrderId := env.followerOrderId c, copiedFromMaster := true,
          masterTradeId := some masterTrade.id, createdAt := env.now }) mid accId
      simp only at hins
      split_ifs at hins ⊢ <;> first | omega | exact hins
    · split_ifs <;> omega

theorem close_count_refs_le (env : EngineEnv) (configs : List CopyTradingConfig)
    (masterTrade : TradeRow) (led0 : Ledger) (mid accId : Int)
    (hpair : (active_configs_for_master configs masterTrade.accountId).Pairwise
      (fun c₁ c₂ => c₁.followerAccountId ≠ c₂.followerAccountId)) :
    count_follower_refs (close_follower_positions env configs masterTrade led0).trades
        mid accId ≤ count_follower_refs led0.trades mid accId + 1 := by
  unfold close_follower_positions
  by_cases hempty :
      (active_configs_for_master configs masterTrade.accountId).isEmpty = true
  · simp only [hempty, if_true, reduceIte]
    omega
  · simp only [hempty, Bool.false_eq_true, if_false, reduceIte]
    rw [count_refs_markCopied]
    refine le_trans (foldl_count_refs_le mid accId _ ?_ _ led0 hpair) ?_
    · intro acc c
      cases hfind : find_position_to_close (env.followerPositions c.followerAccountId)
          masterTrade.symbol masterTrade.side with
      | none =>
        dsimp only
        split_ifs <;> omega
      | some pos =>
        dsimp only
        have hins := count_refs_insert_le acc (fun i =>
          { id := i, accountId := c.followerAccountId, symbol := masterTrade.symbol,
            side := if pos.side == "LONG" then "SELL" else "BUY",
            orderType := "MARKET", quantity := close_quantity pos.size, price := 0,
            status := "FILLED", binanceOrderId := env.closeOrderId c,
            copiedFromMaster := true, masterTradeId := some masterTrade.id,
            createdAt := env.now }) mid accId
        simp only at hins
        split_ifs at hins ⊢ <;> first | omega | exact hins
    · split_ifs <;> omega

theorem follower_rows_count_append_master (led : Ledger) (hwf : LedgerWF led)
    (row : TradeRow) (hcp : row.copiedFromMaster = false) (hid : row.id = led.nextId)
    (masterId : Int) (orderId : String) :
    follower_rows_count (led.trades ++ [row]) masterId orderId =
      follower_rows_count led.trades masterId orderId := by
  unfold follower_rows_count
  rw [List.countP_append]
  have h1 : List.countP (fun f =>
      f.copiedFromMaster && (led.trades ++ [row]).any fun m =>
        f.masterTradeId == some m.id && m.accountId == masterId &&
          m.binanceOrderId == orderId) [row] = 0 := by
    simp [hcp]
  rw [h1, Nat.add_zero]
  apply List.countP_congr
  intro f hf
  have ha : (f.masterTradeId == some row.id) = false := by
    cases hm : f.masterTradeId with
    | none => rfl
    | some j =>
      have hj := (hwf f hf).2 j hm
      rw [beq_eq_false_iff_ne]
      intro hcontra
      rw [Option.some_inj] at hcontra
      omega
  rw [List.any_append]
  simp [List.any_cons, List.any_nil, ha]


/-- C1 (amended): at-most-once propagation.  Re-processing a master order
event appends a further master Trade row for the same (masterAccountId,
exchangeOrderId) pair (master rows are append-only and not deduplicated),
but follower propagation stays at-most-once: once any master row for the
exchange order is flagged copied, re-processing adds no follower Trade
rows; and a single processing run creates at most one follower Trade row
per follower referencing the freshly recorded master row, provided the
master's active links have pairwise distinct followers. -/
theorem process_master_order_at_most_once
    (env : EngineEnv) (configs : List CopyTradingConfig) (masterId : Int)
    (o : OrderEvent) (serverStart : Int) (led : Ledger)
    (hwf : LedgerWF led)
    (hstat : o.status = "NEW" ∨ o.status = "PARTIALLY_FILLED" ∨ o.status = "FILLED") :
    ((∃ m ∈ led.trades, m.accountId = masterId ∧ m.binanceOrderId = o.orderId ∧
        m.copiedFromMaster = true) →
      follower_rows_count (process_master_order env configs masterId o serverStart
          led).trades masterId o.orderId
        = follower_rows_count led.trades masterId o.orderId) ∧
    ((active_configs_for_master configs masterId).Pairwise
        (fun c₁ c₂ => c₁.followerAccountId ≠ c₂.followerAccountId) →
      ∀ accId, count_follower_refs (process_master_order env configs masterId o
          serverStart led).trades led.nextId accId ≤ 1) := by
  have hcancel : ¬ (o.status ∈ cancelStatuses) := by
    rcases hstat with h | h | h <;> rw [h] <;> decide
  obtain ⟨st, dq, pp, hdb⟩ : ∃ st dq pp, db_trade_fields o = some (st, dq, pp) := by
    rcases hstat with h | h | h
    · refine ⟨"PENDING", o.origQty, o.price, ?_⟩
      unfold db_trade_fields
      rw [h]
      rfl
    · refine ⟨"PARTIALLY_FILLED", o.executedQty, o.avgPrice, ?_⟩
      unfold db_trade_fields
      rw [h]
      rfl
    · refine ⟨"FILLED", o.executedQty, o.avgPrice, ?_⟩
      unfold db_trade_fields
      rw [h]
      rfl
  have hrowwf : ∀ t ∈ led.trades ++ [master_trade_row masterId o st dq pp
      led.nextId env.now], ∀ j, t.masterTradeId = some j → j < led.nextId := by
    intro t ht
    rcases List.mem_append.mp ht with hin | hin
    · exact (hwf t hin).2
    · rw [List.mem_singleton] at hin
      subst hin
      intro j hj
      simp [master_trade_row] at hj
  unfold process_master_order
  by_cases hfilt : process_master_order_time_filter o.time serverStart env.now o.status
      (is_potentially_closing env configs masterId o) = true
  · rw [if_neg (not_not_intro hfilt), if_neg hcancel, hdb]
    dsimp only
    by_cases hdup : duplicate_copy_check
        (led.trades ++ [master_trade_row masterId o st dq pp led.nextId env.now])
        configs masterId o
        (master_trade_row masterId o st dq pp led.nextId env.now).id env.now = true
    · rw [if_pos hdup]
      constructor
      · intro _
        exact follower_rows_count_append_master led hwf _ rfl rfl masterId o.orderId
      · intro _ accId
        rw [count_refs_eq_zero _ _ hrowwf accId]
        omega
    · rw [if_neg hdup]
      constructor
      · intro hexists
        exfalso
        apply hdup
        apply dup_check_of_flagged
        obtain ⟨m, hm, h1, h2, h3⟩ := hexists
        exact ⟨m, List.mem_append_left _ hm, h1, h2, h3⟩
      · intro hpair accId
        have hfresh : count_follower_refs
            (led.trades ++ [master_trade_row masterId o st dq pp led.nextId env.now])
            led.nextId accId = 0 := count_refs_eq_zero _ _ hrowwf accId
        cases hro : (o.reduceOnly || is_position_closing_order env.classifier configs
            masterId (master_trade_row masterId o st dq pp led.nextId env.now)
            (led.trades ++ [master_trade_row masterId o st dq pp led.nextId
              env.now])) with
        | false =>
          simp only [hro, Bool.false_eq_true, reduceIte]
          refine le_trans (copy_count_refs_le env configs _ _ led.nextId accId hpair) ?_
          rw [hfresh]
        | true =>
          simp only [hro, reduceIte]
          refine le_trans (close_count_refs_le env configs _ _ led.nextId accId hpair) ?_
          rw [hfresh]
  · rw [if_pos hfilt]
    constructor
    · intro _
      rfl
    · intro _ accId
      rw [count_refs_eq_zero]
      · omega
      · intro t ht
        exact (hwf t ht).2

/-- C1 counterexample: re-processing the same NEW master order event on a
later tick stores a second master Trade row for the same
(masterAccountId, exchangeOrderId) pair, because process_master_order
inserts the database row before running the duplicate check — the claimed
at-most-one-master-row invariant does not hold. -/
theorem master_row_duplication :
    ((process_master_order trivialEngineEnv [] 1 exampleNewOrder 0
        (process_master_order trivialEngineEnv [] 1 exampleNewOrder 0
          { trades := [], nextId := 0 })).trades.countP
      (fun t => t.accountId == 1 && t.binanceOrderId == "42")) = 2 := by
  rfl

/-- C1: applying the amended theorem at a concrete input — an empty
well-formed ledger and the example NEW order — discharging both
hypotheses. -/
theorem process_master_order_at_most_once_witness :
    LedgerWF { trades := [], nextId := 0 } ∧
    (exampleNewOrder.status = "NEW" ∨ exampleNewOrder.status = "PARTIALLY_FILLED" ∨
      exampleNewOrder.status = "FILLED") ∧
    (((∃ m ∈ ({ trades := [], nextId := 0 } : Ledger).trades,
        m.accountId = 1 ∧ m.binanceOrderId = exampleNewOrder.orderId ∧
        m.copiedFromMaster = true) →
      follower_rows_count (process_master_order trivialEngineEnv [] 1 exampleNewOrder 0
          { trades := [], nextId := 0 }).trades 1 exampleNewOrder.orderId
        = follower_rows_count ({ trades := [], nextId := 0 } : Ledger).trades 1
            exampleNewOrder.orderId) ∧
    ((active_configs_for_master [] 1).Pairwise
        (fun c₁ c₂ => c₁.followerAccountId ≠ c₂.followerAccountId) →
      ∀ accId, count_follower_refs (process_master_order trivialEngineEnv [] 1
          exampleNewOrder 0 { trades := [], nextId := 0 }).trades
          ({ trades := [], nextId := 0 } : Ledger).nextId accId ≤ 1)) :=
  ⟨fun t ht => absurd ht (List.not_mem_nil t),
   Or.inl rfl,
   process_master_order_at_most_once trivialEngineEnv [] 1 exampleNewOrder 0
     { trades := [], nextId := 0 }
     (fun t ht => absurd ht (List.not_mem_nil t))
     (Or.inl rfl)⟩
